import Mathlib

/-!
Shallow embedding of the bio-rd core under verification:
* `package rt` — route entries holding candidate paths per prefix and the
  best-path machinery (`NewRoute`, `AddPath`, `AddPaths`, `Remove`,
  `removePath`, `Path.Equal`, `bestPaths`, `getBestProtocol`);
* `package packet` — the BGP message decoder (`decodeHeader`,
  `decodeUpdateMsg`, `decodeNotificationMsg`, `validateOpen`,
  `isValidIdentifier`, path-attribute flag decoding).

Go machine integers are embedded as `Nat` with explicit `% 2 ^ w` where the
source relies on wrap-around; Go slices become `List`; Go's
`(value, error)` returns become pairs with an `Option DecErr`; a `*T`
pointer that the source checks against `nil` becomes `Option T`.
-/

namespace rt

/-- Path type ordinals, from the source (`StaticPathType = 1`, …). -/
def StaticPathType : Nat := 1

def BGPPathType : Nat := 2

def OSPFPathType : Nat := 3

def ISISPathType : Nat := 4

/-- Modelled from the spec: the `StaticPath` payload struct is not under
`src/` (only the pointer field in `Path` names it); §3 gives
`Static { next_hop }`. -/
structure StaticPath where
  nextHop : Nat
deriving DecidableEq, Repr

/-- Modelled from the spec: the `BGPPath` payload struct is not under `src/`;
§3 gives `BGP { next_hop, local_pref, as_path, origin, med, communities,
ebgp, … }` and §4.10's decision process additionally consults the neighbor
AS, IGP cost, router ID and peer address. The source compares two of these
structs with Go struct equality (`*p.BGPPath != *q.BGPPath`), which the
derived decidable equality mirrors field by field. -/
structure BGPPath where
  nextHop : Nat
  localPref : Nat
  asPath : List Nat
  origin : Nat
  med : Nat
  communities : List Nat
  ebgp : Bool
  neighborAS : Nat
  igpCost : Nat
  routerID : Nat
  peerAddress : Nat
deriving DecidableEq, Repr

/-- The `Path` struct: a protocol-type tag (`uint8`) plus one nullable
payload pointer per family (the source declares `StaticPath *StaticPath`
and `BGPPath *BGPPath`). -/
structure Path where
  typ : Nat
  staticPath : Option StaticPath
  bgpPath : Option BGPPath
deriving DecidableEq, Repr

/-- `func (p *Path) Equal(q *Path) bool`. The receiver and argument are
pointers, embedded as `Option Path`; the source returns `false` when either
is `nil`, then compares the type tags, and for BGP paths dereferences and
compares the payload structs (`*p.BGPPath != *q.BGPPath`); payloads of the
other families are never inspected. For a BGP-tagged path the source
assumes the payload pointer is non-nil (it dereferences unconditionally);
the embedding compares the optional payloads. -/
def Path.Equal : Option Path → Option Path → Bool
  | none, _ => false
  | some _, none => false
  | some p, some q =>
    if p.typ ≠ q.typ then false
    else if p.typ = BGPPathType then decide (p.bgpPath = q.bgpPath)
    else true

/-- Modelled from the spec: `net.Prefix` lives outside this repository;
§3 gives `(address_family, address_bytes, length_bits)`, embedded as the
address value plus the prefix length in bits. -/
structure Prefix where
  addr : Nat
  pfxlen : Nat
deriving DecidableEq, Repr

/-- The `Route` struct: a prefix, the active subset and the full candidate
set. The source stores `[]*Path`; route paths are created non-nil and are
dereferenced without checks throughout (`getBestProtocol`, selection), so
the embedding stores `Path` values and route operations pass them to
`Path.Equal` wrapped in `some`. -/
structure Route where
  pfx : Prefix
  activePaths : List Path
  paths : List Path
deriving DecidableEq, Repr

/-- `func NewRoute(pfx *net.Prefix, paths []*Path) *Route`: stores the given
paths and an empty active set; no selection runs here. -/
def NewRoute (pfx : Prefix) (paths : List Path) : Route :=
  { pfx := pfx, activePaths := [], paths := paths }

/-- `func removePath(paths []*Path, remove *Path) []*Path`: find the first
index whose entry is `Equal` to `remove`; if none, return the slice
unchanged, else delete that entry (the source shifts the tail down with
`copy` and truncates). -/
def removePath : List Path → Path → List Path
  | [], _ => []
  | p :: ps, remove =>
    if Path.Equal (some p) (some remove) then ps
    else p :: removePath ps remove

/-- `func (r *Route) Remove(rm *Route) (final bool)`: drop, for each path of
`rm`, the first `Equal` entry of `r.paths`; report whether `r.paths` is now
empty. Returns the updated route together with `final`. -/
def Route.Remove (r : Route) (rm : Route) : Route × Bool :=
  let paths := rm.paths.foldl (fun acc del => removePath acc del) r.paths
  ({ r with paths := paths }, paths.length == 0)

/-- The loop body of `getBestProtocol`: seed `best` with the first type
seen (re-seeding whenever `best` is still `0`), afterwards keep the
minimum type ordinal. -/
def bestFold (best : Nat) (p : Path) : Nat :=
  if best = 0 then p.typ
  else if p.typ < best then p.typ
  else best

/-- `func getBestProtocol(paths []*Path) uint8`: fold `bestFold` over the
paths starting from `0`. -/
def getBestProtocol (paths : List Path) : Nat :=
  paths.foldl bestFold 0

/-- Modelled from the spec: `staticPathSelection` is called by `bestPaths`
but its body is not under `src/`; §4.10 step 2 says "*Static*: all static
paths are active (ECMP across static next-hops)". -/
def staticPathSelection (paths : List Path) : List Path :=
  paths.filter (fun p => p.typ == StaticPathType)

/-- Keep the elements of `c` that maximise `f` (used by the modelled BGP
decision process; ties survive, giving ECMP). -/
def selMax (f : BGPPath → Nat) (c : List BGPPath) : List BGPPath :=
  c.filter (fun x => c.all (fun y => decide (f y ≤ f x)))

/-- Keep the elements of `c` that minimise `f`. -/
def selMin (f : BGPPath → Nat) (c : List BGPPath) : List BGPPath :=
  c.filter (fun x => c.all (fun y => decide (f x ≤ f y)))

/-- Modelled from the spec: `bgpPathSelection` is called by `bestPaths` but
its body is not under `src/`; §4.10 step 2 prescribes the RFC 4271 §9.1
decision process restricted to the BGP paths: (i) highest LOCAL_PREF,
(ii) shortest AS_PATH, (iii) lowest ORIGIN, (iv) lowest MED among paths
from the same neighbor AS, (v) eBGP over iBGP, (vi) lowest IGP cost,
(vii) lowest router ID, (viii) lowest peer address; remaining ties give
ECMP. Each criterion filters the surviving candidates. -/
def bgpPathSelection (paths : List Path) : List Path :=
  let c0 := paths.filter (fun p => p.typ == BGPPathType)
  let b0 := c0.filterMap (fun p => p.bgpPath)
  let b1 := selMax (fun x => x.localPref) b0
  let b2 := selMin (fun x => x.asPath.length) b1
  let b3 := selMin (fun x => x.origin) b2
  let b4 := b3.filter
    (fun x => b3.all (fun y => (y.neighborAS != x.neighborAS) || decide (x.med ≤ y.med)))
  let b5 := b4.filter (fun x => x.ebgp || b4.all (fun y => ! y.ebgp))
  let b6 := selMin (fun x => x.igpCost) b5
  let b7 := selMin (fun x => x.routerID) b6
  let b8 := selMin (fun x => x.peerAddress) b7
  c0.filter (fun p => match p.bgpPath with
    | some b => b8.contains b
    | none => false)

/-- The selection computed by `func (r *Route) bestPaths()`: protocol
arbitration via `getBestProtocol`, then the family-specific selection; the
source handles only the Static and BGP families in its `switch`, every
other outcome leaves `best` nil. -/
def bestPathSelection (paths : List Path) : List Path :=
  let protocol := getBestProtocol paths
  if protocol == StaticPathType then staticPathSelection paths
  else if protocol == BGPPathType then bgpPathSelection paths
  else []

/-- `func (r *Route) bestPaths()`: overwrite `activePaths` with the
selection over the current `paths`. -/
def Route.bestPaths (r : Route) : Route :=
  { r with activePaths := bestPathSelection r.paths }

/-- `func (r *Route) AddPath(p *Path)`: append unconditionally, then rerun
selection. -/
def Route.AddPath (r : Route) (p : Path) : Route :=
  Route.bestPaths { r with paths := r.paths ++ [p] }

/-- `func (r *Route) AddPaths(paths []*Path)`: append all, then rerun
selection once. -/
def Route.AddPaths (r : Route) (ps : List Path) : Route :=
  Route.bestPaths { r with paths := r.paths ++ ps }

end rt

namespace packet

/-- Decoder errors. `bgp` embeds the repository's `BGPError` struct
(code, subcode, message); `str` embeds a plain `fmt.Errorf` error, keeping
the format string and the numeric arguments that were interpolated. -/
inductive DecErr where
  | bgp (code : Nat) (subcode : Nat) (msg : String)
  | str (msg : String) (args : List Nat)
deriving DecidableEq, Repr

/-- Project the structured `(code, subcode)` pair out of a decoder error:
a `BGPError` carries one, a plain `fmt.Errorf` error carries none. -/
def errCodes : Option DecErr → Option (Nat × Nat)
  | some (.bgp c s _) => some (c, s)
  | _ => none

/-- Modelled from the spec: the `packet` package's constants file is not
under `src/` (the decoder only uses the names). §4.2 fixes the marker and
the length bounds, §3 the message types and `version = 4`, §4.8 and the
§8 scenarios the RFC 4271 error-code and subcode assignments. -/
def MarkerLen : Nat := 16

def MinLen : Nat := 19

def MaxLen : Nat := 4096

def OpenMsg : Nat := 1

def UpdateMsg : Nat := 2

def NotificationMsg : Nat := 3

def KeepaliveMsg : Nat := 4

def BGP4Version : Nat := 4

def MessageHeaderError : Nat := 1

def OpenMessageError : Nat := 2

def UpdateMessageError : Nat := 3

def HoldTimeExpired : Nat := 4

def FiniteStateMachineError : Nat := 5

def Cease : Nat := 6

def ConnectionNotSync : Nat := 1

def BadMessageLength : Nat := 2

def BadMessageType : Nat := 3

def UnsupportedVersionNumber : Nat := 1

def BadBGPIdentifier : Nat := 3

def UnacceptableHoldTime : Nat := 6

def DeprecatedOpenMsgError5 : Nat := 5

def MalformedAttributeList : Nat := 1

def DeprecatedUpdateMsgError7 : Nat := 7

def MalformedASPath : Nat := 11

/-- One big-endian `u8` from the byte buffer (`binary.Read`); `none` on
underflow. -/
def readU8 : List Nat → Option (Nat × List Nat)
  | [] => none
  | b :: r => some (b, r)

/-- One big-endian `u16` from the byte buffer; `none` on underflow. -/
def readU16 : List Nat → Option (Nat × List Nat)
  | b1 :: b2 :: r => some (b1 * 256 + b2, r)
  | _ => none

/-- The error `decode` (the `binary.Read` loop) produces on underflow. -/
def underflowErr : DecErr := .str "Unable to read from buffer" []

/-- The `BGPHeader` struct: length and type after marker validation. -/
structure BGPHeader where
  length : Nat
  typ : Nat
deriving DecidableEq, Repr

/-- `func decodeHeader(buf *bytes.Buffer) (*BGPHeader, error)`. Reads the
16 marker bytes (short read ⇒ `Cease/0`, and the source returns the
zero-valued header), requires each to be `0xFF` (`MessageHeaderError /
ConnectionNotSync`, returning a nil header), reads length (u16 BE) and
type (u8) (underflow ⇒ `Cease/0`), then enforces
`MinLen ≤ length ≤ MaxLen` (`BadMessageLength`) and
`1 ≤ type ≤ KeepaliveMsg` (`BadMessageType`). -/
def decodeHeader (buf : List Nat) : Option BGPHeader × Option DecErr × List Nat :=
  if buf.length < MarkerLen then
    (some ⟨0, 0⟩, some (.bgp Cease 0 "Unable to read marker"), buf.drop MarkerLen)
  else
    let marker := buf.take MarkerLen
    let rest := buf.drop MarkerLen
    if marker.any (fun b => b ≠ 255) then
      (none, some (.bgp MessageHeaderError ConnectionNotSync "Invalid marker"), rest)
    else
      match readU16 rest with
      | none => (some ⟨0, 0⟩, some (.bgp Cease 0 "Unable to read from buffer"), rest)
      | some (len, rest1) =>
        match readU8 rest1 with
        | none => (some ⟨len, 0⟩, some (.bgp Cease 0 "Unable to read from buffer"), rest1)
        | some (ty, rest2) =>
          let hdr : BGPHeader := ⟨len, ty⟩
          if len < MinLen ∨ len > MaxLen then
            (some hdr, some (.bgp MessageHeaderError BadMessageLength "Invalid length in BGP header"), rest2)
          else if ty > KeepaliveMsg ∨ ty = 0 then
            (some hdr, some (.bgp MessageHeaderError BadMessageType "Invalid message type"), rest2)
          else
            (some hdr, none, rest2)

/-- The `BGPNotification` struct: error code and subcode. -/
structure BGPNotification where
  errorCode : Nat
  errorSubcode : Nat
deriving DecidableEq, Repr

/-- `func invalidErrCode(n *BGPNotification) (*BGPNotification, error)`:
wraps the notification with the "Invalid error sub code: %d/%d" error. -/
def invalidErrCode (n : BGPNotification) : BGPNotification × Option DecErr :=
  (n, some (.str "Invalid error sub code" [n.errorCode, n.errorSubcode]))

/-- `func decodeNotificationMsg(buf *bytes.Buffer) (*BGPNotification, error)`.
Reads the code and subcode bytes; rejects `errorCode > Cease` with the
"Invalid error code: %d" error (the source interpolates the subcode
there); then the `switch` on the code enforces the per-code subcode
constraints via `invalidErrCode`, the `default` branch catching code `0`. -/
def decodeNotificationMsg (buf : List Nat) : BGPNotification × Option DecErr × List Nat :=
  match buf with
  | [] => (⟨0, 0⟩, some underflowErr, [])
  | [c] => (⟨c, 0⟩, some underflowErr, [])
  | c :: s :: rest =>
    let msg : BGPNotification := ⟨c, s⟩
    let pass : BGPNotification × Option DecErr × List Nat := (msg, none, rest)
    let fail : BGPNotification × Option DecErr × List Nat :=
      ((invalidErrCode msg).1, (invalidErrCode msg).2, rest)
    if c > Cease then
      (msg, some (.str "Invalid error code" [s]), rest)
    else if c = MessageHeaderError then
      if s > BadMessageType ∨ s = 0 then fail else pass
    else if c = OpenMessageError then
      if s > UnacceptableHoldTime ∨ s = 0 ∨ s = DeprecatedOpenMsgError5 then fail else pass
    else if c = UpdateMessageError then
      if s > MalformedASPath ∨ s = 0 ∨ s = DeprecatedUpdateMsgError7 then fail else pass
    else if c = HoldTimeExpired then
      if s ≠ 0 then fail else pass
    else if c = FiniteStateMachineError then
      if s ≠ 0 then fail else pass
    else if c = Cease then
      if s ≠ 0 then fail else pass
    else fail

/-- The fixed fields of the `BGPOpen` struct (the source reads version, AS,
hold time, identifier and the optional-parameter length). `asn` embeds the
`AS` field. -/
structure BGPOpen where
  version : Nat
  asn : Nat
  holdTime : Nat
  bgpIdentifier : Nat
  optParmLen : Nat
deriving DecidableEq, Repr

/-- `func isValidIdentifier(id uint32) bool`: view the identifier as the
four big-endian bytes of an IPv4 address (`convert.Uint32Byte`); reject
loopback (`net.IP.IsLoopback`, first byte 127), multicast
(`net.IP.IsMulticast`, `b0 & 0xf0 == 0xe0`), a zero first byte, and the
broadcast address 255.255.255.255. -/
def isValidIdentifier (id : Nat) : Bool :=
  let b0 := id / 2 ^ 24 % 256
  let b1 := id / 2 ^ 16 % 256
  let b2 := id / 2 ^ 8 % 256
  let b3 := id % 256
  if b0 = 127 then false
  else if b0 &&& 0xf0 = 0xe0 then false
  else if b0 = 0 then false
  else if b0 = 255 ∧ b1 = 255 ∧ b2 = 255 ∧ b3 = 255 then false
  else true

/-- `func validateOpen(msg *BGPOpen) error`: version must be `BGP4Version`
(`OpenMessageError / UnsupportedVersionNumber`), the identifier must pass
`isValidIdentifier` (`OpenMessageError / BadBGPIdentifier`). -/
def validateOpen (msg : BGPOpen) : Option DecErr :=
  if msg.version ≠ BGP4Version then
    some (.bgp OpenMessageError UnsupportedVersionNumber "Unsupported version number")
  else if ¬ isValidIdentifier msg.bgpIdentifier then
    some (.bgp OpenMessageError BadBGPIdentifier "Invalid BGP identifier")
  else none

end packet

namespace packet

/-- Modelled from the spec: `decodeNLRIs` is called by `decodeUpdateMsg`
but its body is not under `src/`; §4.7: within the declared byte budget,
repeatedly read `length_bits` (u8), read `⌈length_bits/8⌉` address bytes
(zero-padded to full width), emit a `Prefix`; budget exhaustion
mid-prefix, like reader underflow, is malformed. Returns the prefixes and
the unconsumed remainder of the buffer. -/
def decodeNLRIs (buf : List Nat) (budget : Nat) : Except DecErr (List rt.Prefix × List Nat) :=
  if budget = 0 then .ok ([], buf)
  else
    match buf with
    | [] => .error underflowErr
    | lb :: rest =>
      let bc := (lb + 7) / 8
      if budget < 1 + bc then .error (.str "Failed to decode NLRI" [])
      else if rest.length < bc then .error underflowErr
      else
        let addr := (rest.take bc).foldl (fun a b => a * 256 + b) 0
        match decodeNLRIs (rest.drop bc) (budget - (1 + bc)) with
        | .ok (ps, r) => .ok (⟨addr, lb⟩ :: ps, r)
        | .error e => .error e
termination_by budget
decreasing_by omega

/-- A decoded path attribute: the four flag bits, the type code, the
declared length and the raw value bytes. `partBit` embeds the source's
`Partial` field. -/
structure PathAttribute where
  optional : Bool
  transitive : Bool
  partBit : Bool
  extendedLength : Bool
  typeCode : Nat
  length : Nat
  value : List Nat
deriving DecidableEq, Repr

/-- `func isOptional(x uint8) bool`: bit `0x80`. -/
def isOptional (x : Nat) : Bool := x &&& 128 = 128

/-- `func isTransitive(x uint8) bool`: bit `0x40`. -/
def isTransitive (x : Nat) : Bool := x &&& 64 = 64

/-- The source's `isPartial` (renamed here): bit `0x20`. -/
def isPartBit (x : Nat) : Bool := x &&& 32 = 32

/-- `func isExtendedLength(x uint8) bool`: bit `0x10`. -/
def isExtendedLength (x : Nat) : Bool := x &&& 16 = 16

/-- Modelled from the spec: `decodePathAttrs` is called by
`decodeUpdateMsg` but its body is not under `src/`; §4.6: for each
attribute read the flag byte (decoded by the source's
`decodePathAttrFlags`, embedded inline via the four bit tests above), the
type code (u8), the length (u16 if the extended-length bit is set, else
u8) and `length` value bytes, consuming exactly the declared budget;
overrunning the budget mid-attribute, like reader underflow, is
malformed. -/
def decodePathAttrs (buf : List Nat) (budget : Nat) : Except DecErr (List PathAttribute × List Nat) :=
  if budget = 0 then .ok ([], buf)
  else
    match buf with
    | [] => .error underflowErr
    | [_] => .error underflowErr
    | fl :: tc :: rest1 =>
      if isExtendedLength fl then
        match rest1 with
        | l1 :: l2 :: rest2 =>
          let len := l1 * 256 + l2
          if budget < 2 + 2 + len then .error (.str "Failed to decode path attribute" [])
          else if rest2.length < len then .error underflowErr
          else
            let pa : PathAttribute :=
              ⟨isOptional fl, isTransitive fl, isPartBit fl, isExtendedLength fl,
               tc, len, rest2.take len⟩
            match decodePathAttrs (rest2.drop len) (budget - (2 + 2 + len)) with
            | .ok (pas, r) => .ok (pa :: pas, r)
            | .error e => .error e
        | _ => .error underflowErr
      else
        match rest1 with
        | l1 :: rest2 =>
          let len := l1
          if budget < 2 + 1 + len then .error (.str "Failed to decode path attribute" [])
          else if rest2.length < len then .error underflowErr
          else
            let pa : PathAttribute :=
              ⟨isOptional fl, isTransitive fl, isPartBit fl, isExtendedLength fl,
               tc, len, rest2.take len⟩
            match decodePathAttrs (rest2.drop len) (budget - (2 + 1 + len)) with
            | .ok (pas, r) => .ok (pa :: pas, r)
            | .error e => .error e
        | _ => .error underflowErr
termination_by budget
decreasing_by all_goals omega

/-- The `BGPUpdate` struct. -/
structure BGPUpdate where
  withdrawnRoutesLen : Nat
  withdrawnRoutes : List rt.Prefix
  totalPathAttrLen : Nat
  pathAttributes : List PathAttribute
  nlri : List rt.Prefix
deriving DecidableEq, Repr

/-- The zero-valued `BGPUpdate` the source allocates before decoding. -/
def emptyUpdate : BGPUpdate := ⟨0, [], 0, [], []⟩

/-- The source's `uint16` subtraction `uint16(l) - 4 - uint16(t) - uint16(w)`:
two's-complement wrap-around, i.e. the mathematical difference modulo
`2 ^ 16`. -/
def u16sub (l t w : Nat) : Nat :=
  (((l % 65536 : Int) - 4 - (t % 65536 : Int) - (w % 65536 : Int)) % 65536).toNat

/-- `func decodeUpdateMsg(buf *bytes.Buffer, l uint16) (*BGPUpdate, error)`.
Reads `withdrawnRoutesLen` (u16), the withdrawn NLRIs, `totalPathAttrLen`
(u16), the path attributes, then computes
`nlriLen := uint16(l) - 4 - uint16(totalPathAttrLen) -
uint16(withdrawnRoutesLen)` in wrapping `uint16` arithmetic — there is no
negativity check — and, whenever `nlriLen > 0`, decodes `nlriLen` bytes of
NLRI. Returns the partially-filled message together with the error, if
any, and the unconsumed remainder of the buffer. -/
def decodeUpdateMsg (buf : List Nat) (l : Nat) : BGPUpdate × Option DecErr × List Nat :=
  match readU16 buf with
  | none => (emptyUpdate, some underflowErr, buf)
  | some (w, buf1) =>
    let msg1 := { emptyUpdate with withdrawnRoutesLen := w }
    match decodeNLRIs buf1 w with
    | .error e => (msg1, some e, buf1)
    | .ok (wdr, buf2) =>
      let msg2 := { msg1 with withdrawnRoutes := wdr }
      match readU16 buf2 with
      | none => (msg2, some underflowErr, buf2)
      | some (t, buf3) =>
        let msg3 := { msg2 with totalPathAttrLen := t }
        match decodePathAttrs buf3 t with
        | .error e => (msg3, some e, buf3)
        | .ok (pas, buf4) =>
          let msg4 := { msg3 with pathAttributes := pas }
          let nlriLen := u16sub l t w
          if nlriLen > 0 then
            match decodeNLRIs buf4 nlriLen with
            | .error e => (msg4, some e, buf4)
            | .ok (nl, buf5) => ({ msg4 with nlri := nl }, none, buf5)
          else
            (msg4, none, buf4)

end packet

section RouteEntryTheorems

open rt

/-- `removePath` deletes exactly the first entry that is `Equal` to the
argument: it agrees with `List.eraseP`. -/
theorem removePath_eq_eraseP (ps : List Path) (q : Path) :
    removePath ps q = ps.eraseP (fun p => Path.Equal (some p) (some q)) := by
  induction ps with
  | nil => rfl
  | cons p ps ih =>
    by_cases h : Path.Equal (some p) (some q)
    · simp [removePath, List.eraseP_cons, h]
    · simp only [Bool.not_eq_true] at h
      simp [removePath, List.eraseP_cons, h, ih]

/-- A path with no `Equal` match leaves the list unchanged. -/
theorem removePath_no_match (ps : List Path) (q : Path)
    (h : ∀ p ∈ ps, Path.Equal (some p) (some q) = false) :
    removePath ps q = ps := by
  induction ps with
  | nil => rfl
  | cons p ps ih =>
    simp [removePath, h p (List.mem_cons_self p ps)]
    exact ih (fun p hp => h p (List.mem_cons_of_mem _ hp))

/-- Every path selected by `bestPathSelection` comes from the candidate
set. -/
theorem bestPathSelection_subset (paths : List Path) :
    ∀ q ∈ bestPathSelection paths, q ∈ paths := by
  intro q hq
  unfold bestPathSelection at hq
  simp only at hq
  split_ifs at hq
  · exact List.mem_of_mem_filter hq
  · unfold bgpPathSelection at hq
    exact List.mem_of_mem_filter (List.mem_of_mem_filter hq)
  · simp at hq

/-- Starting from a positive seed, the `getBestProtocol` fold stays
positive and never increases past the seed. -/
theorem foldl_bestFold_pos (l : List Path) :
    ∀ b, 1 ≤ b → (∀ p ∈ l, 1 ≤ p.typ) →
      1 ≤ l.foldl bestFold b ∧ l.foldl bestFold b ≤ b := by
  induction l with
  | nil => intro b hb _; exact ⟨hb, le_refl b⟩
  | cons p l ih =>
    intro b hb hall
    have hp : 1 ≤ p.typ := hall p (List.mem_cons_self p l)
    have hstep : 1 ≤ bestFold b p ∧ bestFold b p ≤ b := by
      unfold bestFold; split_ifs <;> omega
    rw [List.foldl_cons]
    have hres := ih (bestFold b p) hstep.1 (fun q hq => hall q (List.mem_cons_of_mem _ hq))
    exact ⟨hres.1, le_trans hres.2 hstep.2⟩

/-- Starting from `0`, the fold yields `0` or a positive value when all
path types are positive. -/
theorem foldl_bestFold_zero (l : List Path) (hall : ∀ p ∈ l, 1 ≤ p.typ) :
    l.foldl bestFold 0 = 0 ∨ 1 ≤ l.foldl bestFold 0 := by
  cases l with
  | nil => exact Or.inl rfl
  | cons p l =>
    right
    rw [List.foldl_cons]
    have hp : 1 ≤ p.typ := hall p (List.mem_cons_self p l)
    have hstep : bestFold 0 p = p.typ := by unfold bestFold; simp
    rw [hstep]
    exact (foldl_bestFold_pos l p.typ hp (fun q hq => hall q (List.mem_cons_of_mem _ hq))).1

/-- When a static path is present and all types are positive, protocol
arbitration yields the Static ordinal. -/
theorem getBestProtocol_static (paths : List Path)
    (hall : ∀ p ∈ paths, 1 ≤ p.typ) (sp : Path) (hsp : sp ∈ paths)
    (hty : sp.typ = StaticPathType) :
    getBestProtocol paths = StaticPathType := by
  obtain ⟨s, t, rfl⟩ := List.append_of_mem hsp
  have hs : ∀ p ∈ s, 1 ≤ p.typ := fun p hp => hall p (by simp [hp])
  have ht : ∀ p ∈ t, 1 ≤ p.typ := fun p hp => hall p (by simp [hp])
  unfold getBestProtocol
  rw [List.foldl_append, List.foldl_cons]
  have hb0 := foldl_bestFold_zero s hs
  have hstep : bestFold (s.foldl bestFold 0) sp = 1 := by
    unfold bestFold
    simp only [StaticPathType] at hty
    rcases hb0 with h | h <;> split_ifs <;> omega
  rw [hstep]
  have := foldl_bestFold_pos t 1 (le_refl 1) ht
  simp only [StaticPathType]
  omega

end RouteEntryTheorems

/-- `Route.Remove`'s fold of `removePath` is a fold of `List.eraseP`. -/
theorem foldl_removePath (qs : List rt.Path) (acc : List rt.Path) :
    qs.foldl (fun a q => rt.removePath a q) acc =
    qs.foldl (fun a q => a.eraseP (fun p => rt.Path.Equal (some p) (some q))) acc := by
  induction qs generalizing acc with
  | nil => rfl
  | cons q qs ih => simp [List.foldl_cons, removePath_eq_eraseP, ih]

section RouteEntryClaims

open rt

/-- C10: `Route.new(prefix, initial_paths)` leaves the active path set
empty for every prefix and every initial path list: best-path selection is
not run at construction, so `active_paths()` on a fresh route is `[]`. -/
theorem newRoute_active_empty (pfx : Prefix) (ps : List Path) :
    (NewRoute pfx ps).activePaths = [] ∧ (NewRoute pfx ps).paths = ps :=
  ⟨rfl, rfl⟩

/-- C3 counterexample: adding a path that is structurally equal to an
already-present path does not leave `paths` unchanged — the duplicate is
appended, growing the list to length 2. -/
theorem addPath_duplicate_appended :
    Path.Equal (some ⟨1, some ⟨10⟩, none⟩) (some ⟨1, some ⟨10⟩, none⟩) = true ∧
    (((NewRoute ⟨0, 0⟩ []).AddPath ⟨1, some ⟨10⟩, none⟩).AddPath
        ⟨1, some ⟨10⟩, none⟩).paths ≠
      ((NewRoute ⟨0, 0⟩ []).AddPath ⟨1, some ⟨10⟩, none⟩).paths ∧
    (((NewRoute ⟨0, 0⟩ []).AddPath ⟨1, some ⟨10⟩, none⟩).AddPath
        ⟨1, some ⟨10⟩, none⟩).paths.length = 2 := by
  decide

/-- C3 amended: `add_path(p)` appends `p` to `paths` unconditionally —
there is no deduplication, so a duplicate add grows `paths` — after which
the active set is recomputed by the selection function; the operation is
total (it never errors). -/
theorem addPath_appends_unconditionally (r : Route) (p : Path) :
    (r.AddPath p).paths = r.paths ++ [p] ∧
    (r.AddPath p).paths.length = r.paths.length + 1 ∧
    (r.AddPath p).activePaths = bestPathSelection (r.paths ++ [p]) :=
  ⟨rfl, by simp [Route.AddPath, Route.bestPaths], rfl⟩

/-- C4 counterexample: two Static paths with different next-hop payloads
are `Equal` — the source's `switch` only compares payloads for BGP paths,
so Static payloads are ignored. -/
theorem equal_ignores_static_payload :
    (⟨1, some ⟨10⟩, none⟩ : Path).staticPath ≠ (⟨1, some ⟨20⟩, none⟩ : Path).staticPath ∧
    Path.Equal (some ⟨1, some ⟨10⟩, none⟩) (some ⟨1, some ⟨20⟩, none⟩) = true := by
  decide

/-- C4 amended: `Path.Equal` is `false` when either side is nil; on two
non-nil paths it is `true` iff the protocol tags agree and, when the tag
is BGP, the BGP payloads agree — payload fields of Static (and any other
non-BGP) paths are not compared. -/
theorem path_equal_characterisation (p q : Path) :
    (Path.Equal (some p) (some q) = true ↔
      p.typ = q.typ ∧ (p.typ = BGPPathType → p.bgpPath = q.bgpPath)) ∧
    (∀ o : Option Path, Path.Equal none o = false) ∧
    (∀ o : Option Path, Path.Equal o none = false) := by
  refine ⟨?_, fun o => rfl, fun o => by cases o <;> rfl⟩
  show (if p.typ ≠ q.typ then false
    else if p.typ = BGPPathType then decide (p.bgpPath = q.bgpPath) else true) = true ↔ _
  split_ifs with h1 h2 <;> simp_all

/-- C4 amended, witness. -/
theorem path_equal_characterisation_witness :
    Path.Equal (some ⟨1, some ⟨10⟩, none⟩) (some ⟨1, some ⟨20⟩, none⟩) = true :=
  ((path_equal_characterisation ⟨1, some ⟨10⟩, none⟩ ⟨1, some ⟨20⟩, none⟩).1).mpr
    (by decide)

/-- C9: `remove(rm)` deletes, for each path of `rm.paths`, the first
structurally-equal entry of `r.paths` (`List.eraseP` by `Path.Equal`);
a path with no match leaves `paths` unchanged (a no-op, not an error);
and the returned flag is `true` exactly when `paths` is empty
afterwards. -/
theorem route_remove_spec (r rm : Route) :
    ((r.Remove rm).1.paths =
      rm.paths.foldl
        (fun acc q => acc.eraseP (fun p => Path.Equal (some p) (some q))) r.paths) ∧
    ((r.Remove rm).2 = true ↔ (r.Remove rm).1.paths = []) ∧
    (∀ ps (q : Path), (∀ p ∈ ps, Path.Equal (some p) (some q) = false) →
      removePath ps q = ps) := by
  refine ⟨foldl_removePath rm.paths r.paths, ?_, removePath_no_match⟩
  simp [Route.Remove, List.length_eq_zero]

end RouteEntryClaims

section RouteEntryClaims2

open rt

/-- C9 witness: withdrawing the only path empties the entry and reports
`final = true`; a non-matching removal is a no-op. -/
theorem route_remove_spec_witness :
    ((NewRoute ⟨0, 0⟩ [⟨1, some ⟨10⟩, none⟩]).Remove
        (NewRoute ⟨0, 0⟩ [⟨1, some ⟨10⟩, none⟩])).2 = true ∧
    removePath [⟨1, some ⟨10⟩, none⟩] ⟨2, none, some ⟨1, 100, [1], 0, 0, [], true, 7, 5, 9, 3⟩⟩ =
      [⟨1, some ⟨10⟩, none⟩] := by
  constructor
  · exact ((route_remove_spec (NewRoute ⟨0, 0⟩ [⟨1, some ⟨10⟩, none⟩])
      (NewRoute ⟨0, 0⟩ [⟨1, some ⟨10⟩, none⟩])).2.1).mpr (by decide)
  · exact (route_remove_spec (NewRoute ⟨0, 0⟩ [])
      (NewRoute ⟨0, 0⟩ [])).2.2 [⟨1, some ⟨10⟩, none⟩]
      ⟨2, none, some ⟨1, 100, [1], 0, 0, [], true, 7, 5, 9, 3⟩⟩ (by decide)

/-- C2 counterexample: `Remove` does not rerun best-path selection.
Adding one static path and then withdrawing it leaves `activePaths` still
holding the removed path, so `active` is neither the selection result on
the now-empty `paths` nor a subset of `paths`. -/
theorem remove_skips_selection :
    (((NewRoute ⟨0, 0⟩ []).AddPath ⟨1, some ⟨10⟩, none⟩).Remove
        (NewRoute ⟨0, 0⟩ [⟨1, some ⟨10⟩, none⟩])).1.paths = [] ∧
    (((NewRoute ⟨0, 0⟩ []).AddPath ⟨1, some ⟨10⟩, none⟩).Remove
        (NewRoute ⟨0, 0⟩ [⟨1, some ⟨10⟩, none⟩])).1.activePaths = [⟨1, some ⟨10⟩, none⟩] ∧
    (((NewRoute ⟨0, 0⟩ []).AddPath ⟨1, some ⟨10⟩, none⟩).Remove
        (NewRoute ⟨0, 0⟩ [⟨1, some ⟨10⟩, none⟩])).1.activePaths ≠
      bestPathSelection
        ((((NewRoute ⟨0, 0⟩ []).AddPath ⟨1, some ⟨10⟩, none⟩).Remove
          (NewRoute ⟨0, 0⟩ [⟨1, some ⟨10⟩, none⟩])).1.paths) ∧
    ¬ (∀ p ∈ (((NewRoute ⟨0, 0⟩ []).AddPath ⟨1, some ⟨10⟩, none⟩).Remove
          (NewRoute ⟨0, 0⟩ [⟨1, some ⟨10⟩, none⟩])).1.activePaths,
        p ∈ (((NewRoute ⟨0, 0⟩ []).AddPath ⟨1, some ⟨10⟩, none⟩).Remove
          (NewRoute ⟨0, 0⟩ [⟨1, some ⟨10⟩, none⟩])).1.paths) := by
  refine ⟨by decide, by decide, by decide, ?_⟩
  intro h
  exact absurd (h ⟨1, some ⟨10⟩, none⟩ (by decide)) (by decide)

/-- C2 amended: immediately after `add_path` or `add_paths` the active set
is the best-path selection of the current paths, and hence a subset of
`paths`; `remove` does not recompute the active set (see the
counterexample), so the invariant is re-established only by the add
operations. -/
theorem active_selection_after_add (r : Route) (p : Path) (ps : List Path) :
    (r.AddPath p).activePaths = bestPathSelection (r.AddPath p).paths ∧
    (r.AddPaths ps).activePaths = bestPathSelection (r.AddPaths ps).paths ∧
    (∀ q ∈ (r.AddPath p).activePaths, q ∈ (r.AddPath p).paths) ∧
    (∀ q ∈ (r.AddPaths ps).activePaths, q ∈ (r.AddPaths ps).paths) :=
  ⟨rfl, rfl, fun q hq => bestPathSelection_subset _ q hq,
   fun q hq => bestPathSelection_subset _ q hq⟩

/-- C2 amended, witness: after adding one static path the active set is
the selection result and sits inside `paths`. -/
theorem active_selection_after_add_witness :
    ((NewRoute ⟨0, 0⟩ []).AddPath ⟨1, some ⟨10⟩, none⟩).activePaths =
      bestPathSelection ((NewRoute ⟨0, 0⟩ []).AddPath ⟨1, some ⟨10⟩, none⟩).paths ∧
    (⟨1, some ⟨10⟩, none⟩ : Path) ∈ ((NewRoute ⟨0, 0⟩ []).AddPath ⟨1, some ⟨10⟩, none⟩).paths :=
  ⟨(active_selection_after_add (NewRoute ⟨0, 0⟩ []) ⟨1, some ⟨10⟩, none⟩ []).1,
   (active_selection_after_add (NewRoute ⟨0, 0⟩ []) ⟨1, some ⟨10⟩, none⟩ []).2.2.1
     ⟨1, some ⟨10⟩, none⟩ (by decide)⟩

/-- C5: if the candidate set contains a Static path and every path carries
one of the four protocol ordinals (Static=1, BGP=2, OSPF=3, ISIS=4), then
protocol arbitration picks the Static ordinal and the selected active set
contains only Static paths, whatever BGP/OSPF/ISIS paths are present. -/
theorem static_priority (paths : List Path)
    (hstatic : ∃ p ∈ paths, p.typ = StaticPathType)
    (htypes : ∀ p ∈ paths, p.typ = StaticPathType ∨ p.typ = BGPPathType ∨
      p.typ = OSPFPathType ∨ p.typ = ISISPathType) :
    getBestProtocol paths = StaticPathType ∧
    ∀ q ∈ bestPathSelection paths, q.typ = StaticPathType := by
  obtain ⟨sp, hsp, hty⟩ := hstatic
  have hall : ∀ p ∈ paths, 1 ≤ p.typ := by
    intro p hp
    rcases htypes p hp with h | h | h | h <;>
      simp [h, StaticPathType, BGPPathType, OSPFPathType, ISISPathType]
  have hbest := getBestProtocol_static paths hall sp hsp hty
  refine ⟨hbest, fun q hq => ?_⟩
  unfold bestPathSelection at hq
  simp only [hbest] at hq
  norm_num [StaticPathType] at hq
  unfold staticPathSelection at hq
  have := (List.mem_filter.mp hq).2
  simpa [StaticPathType] using this

/-- C5 witness: with one BGP and one static path present, selection keeps
only the static one. -/
theorem static_priority_witness :
    getBestProtocol
      [⟨2, none, some ⟨1, 100, [1], 0, 0, [], true, 7, 5, 9, 3⟩⟩, ⟨1, some ⟨10⟩, none⟩] =
      StaticPathType ∧
    ∀ q ∈ bestPathSelection
      [⟨2, none, some ⟨1, 100, [1], 0, 0, [], true, 7, 5, 9, 3⟩⟩, ⟨1, some ⟨10⟩, none⟩],
      q.typ = StaticPathType :=
  static_priority
    [⟨2, none, some ⟨1, 100, [1], 0, 0, [], true, 7, 5, 9, 3⟩⟩, ⟨1, some ⟨10⟩, none⟩]
    ⟨⟨1, some ⟨10⟩, none⟩, by decide, by decide⟩
    (by decide)

end RouteEntryClaims2

section DecoderClaims

open packet

set_option maxRecDepth 4096 in
/-- Bit test `b &&& 0xf0 = 0xe0` on a byte is exactly the multicast range
`224 ≤ b < 240`. -/
theorem land_multicast : ∀ b < 256, ((b &&& 240 = 224) ↔ (224 ≤ b ∧ b < 240)) := by
  decide

/-- C8: with a valid version, `validateOpen` rejects the 32-bit identifier
with `OpenMessageError/BadBGPIdentifier` exactly when, read as an IPv4
address, it lies in 0.0.0.0/8, in 127.0.0.0/8, in 224.0.0.0/4, or equals
255.255.255.255; every other identifier is accepted. -/
theorem identifier_validation (id : Nat) (hid : id < 2 ^ 32) :
    (isValidIdentifier id = false ↔
      (id < 2 ^ 24 ∨
       (127 * 2 ^ 24 ≤ id ∧ id < 128 * 2 ^ 24) ∨
       (224 * 2 ^ 24 ≤ id ∧ id < 240 * 2 ^ 24) ∨
       id = 2 ^ 32 - 1)) ∧
    (∀ msg : BGPOpen, msg.version = BGP4Version → msg.bgpIdentifier = id →
      ((validateOpen msg =
          some (.bgp OpenMessageError BadBGPIdentifier "Invalid BGP identifier")) ↔
        isValidIdentifier id = false) ∧
      (validateOpen msg = none ↔ isValidIdentifier id = true)) := by
  have e32 : (2 : Nat) ^ 32 = 4294967296 := by norm_num
  have e24 : (2 : Nat) ^ 24 = 16777216 := by norm_num
  have e16 : (2 : Nat) ^ 16 = 65536 := by norm_num
  have e8 : (2 : Nat) ^ 8 = 256 := by norm_num
  rw [e32] at hid
  constructor
  · rw [e32, e24]
    unfold isValidIdentifier
    simp only [e24, e16, e8]
    have hb0 : id / 16777216 % 256 = id / 16777216 := by omega
    rw [hb0]
    have hmc := land_multicast (id / 16777216) (by omega)
    split_ifs with h1 h2 h3 h4
    · exact ⟨fun _ => by omega, fun _ => rfl⟩
    · rw [hmc] at h2
      exact ⟨fun _ => by omega, fun _ => rfl⟩
    · exact ⟨fun _ => by omega, fun _ => rfl⟩
    · exact ⟨fun _ => by omega, fun _ => rfl⟩
    · rw [hmc] at h2
      exact ⟨fun h => absurd h (by simp), fun hD => absurd hD (by omega)⟩
  · intro msg hv hident
    unfold validateOpen
    rw [hv, hident]
    cases hvi : isValidIdentifier id <;> simp [hvi]

/-- C8 witness: 127.0.0.1 (`0x7F000001`) is rejected with
`OpenMessageError/BadBGPIdentifier`; 1.2.3.4 is accepted. -/
theorem identifier_validation_witness :
    isValidIdentifier 2130706433 = false ∧
    validateOpen ⟨4, 65001, 180, 2130706433, 0⟩ =
      some (.bgp OpenMessageError BadBGPIdentifier "Invalid BGP identifier") ∧
    validateOpen ⟨4, 65001, 180, 16909060, 0⟩ = none := by
  have h1 := identifier_validation 2130706433 (by norm_num)
  have h2 := identifier_validation 16909060 (by norm_num)
  have hbad : isValidIdentifier 2130706433 = false := h1.1.mpr (by norm_num)
  refine ⟨hbad, ?_, ?_⟩
  · exact ((h1.2 ⟨4, 65001, 180, 2130706433, 0⟩ rfl rfl).1).mpr hbad
  · refine ((h2.2 ⟨4, 65001, 180, 16909060, 0⟩ rfl rfl).2).mpr ?_
    cases hv : isValidIdentifier 16909060
    · exact absurd (h2.1.mp hv) (by norm_num)
    · rfl

end DecoderClaims

section HeaderClaim

open packet

/-- C7: on a 19-byte input, `decodeHeader` fails with
`MessageHeaderError/ConnectionNotSync` when any of the first 16 marker
bytes differs from `0xFF` (returning a nil header and leaving the 3
post-marker bytes unread); with a valid marker it fails with
`MessageHeaderError/BadMessageLength` when the big-endian length field is
below 19 or above 4096, with `MessageHeaderError/BadMessageType` when the
type byte is 0 or greater than 4, and otherwise returns the
`(length, type)` header. -/
theorem decodeHeader_spec
    (b0 b1 b2 b3 b4 b5 b6 b7 b8 b9 b10 b11 b12 b13 b14 b15 b16 b17 b18 : Nat) :
    (¬ (∀ b ∈ ([b0, b1, b2, b3, b4, b5, b6, b7, b8, b9, b10, b11, b12, b13, b14, b15] :
          List Nat), b = 255) →
      decodeHeader [b0, b1, b2, b3, b4, b5, b6, b7, b8, b9, b10, b11, b12, b13, b14, b15,
          b16, b17, b18] =
        (none, some (.bgp MessageHeaderError ConnectionNotSync "Invalid marker"),
          [b16, b17, b18])) ∧
    ((∀ b ∈ ([b0, b1, b2, b3, b4, b5, b6, b7, b8, b9, b10, b11, b12, b13, b14, b15] :
          List Nat), b = 255) →
      ((b16 * 256 + b17 < 19 ∨ b16 * 256 + b17 > 4096) →
        decodeHeader [b0, b1, b2, b3, b4, b5, b6, b7, b8, b9, b10, b11, b12, b13, b14, b15,
            b16, b17, b18] =
          (some ⟨b16 * 256 + b17, b18⟩,
           some (.bgp MessageHeaderError BadMessageLength "Invalid length in BGP header"),
           [])) ∧
      (19 ≤ b16 * 256 + b17 → b16 * 256 + b17 ≤ 4096 → (b18 = 0 ∨ b18 > 4) →
        decodeHeader [b0, b1, b2, b3, b4, b5, b6, b7, b8, b9, b10, b11, b12, b13, b14, b15,
            b16, b17, b18] =
          (some ⟨b16 * 256 + b17, b18⟩,
           some (.bgp MessageHeaderError BadMessageType "Invalid message type"), [])) ∧
      (19 ≤ b16 * 256 + b17 → b16 * 256 + b17 ≤ 4096 → 1 ≤ b18 → b18 ≤ 4 →
        decodeHeader [b0, b1, b2, b3, b4, b5, b6, b7, b8, b9, b10, b11, b12, b13, b14, b15,
            b16, b17, b18] =
          (some ⟨b16 * 256 + b17, b18⟩, none, []))) := by
  have hlen : ¬ (([b0, b1, b2, b3, b4, b5, b6, b7, b8, b9, b10, b11, b12, b13, b14, b15,
      b16, b17, b18] : List Nat).length < MarkerLen) := by
    simp [MarkerLen]
  have htake : List.take MarkerLen [b0, b1, b2, b3, b4, b5, b6, b7, b8, b9, b10, b11, b12,
      b13, b14, b15, b16, b17, b18] =
      [b0, b1, b2, b3, b4, b5, b6, b7, b8, b9, b10, b11, b12, b13, b14, b15] := rfl
  have hdrop : List.drop MarkerLen [b0, b1, b2, b3, b4, b5, b6, b7, b8, b9, b10, b11, b12,
      b13, b14, b15, b16, b17, b18] = [b16, b17, b18] := rfl
  constructor
  · intro hm
    have hx : ∃ x ∈ ([b0, b1, b2, b3, b4, b5, b6, b7, b8, b9, b10, b11, b12, b13, b14,
        b15] : List Nat), ¬ x = 255 := by
      by_contra hc
      push_neg at hc
      exact hm hc
    obtain ⟨x, hx1, hx2⟩ := hx
    unfold decodeHeader
    rw [if_neg hlen, htake, hdrop]
    rw [if_pos]
    simp only [List.any_eq_true, decide_eq_true_eq]
    exact ⟨x, hx1, hx2⟩
  · intro hall
    have hany : ¬ ((([b0, b1, b2, b3, b4, b5, b6, b7, b8, b9, b10, b11, b12, b13, b14,
        b15] : List Nat).any (fun b => decide (¬ b = 255))) = true) := by
      simp only [List.any_eq_true, decide_eq_true_eq]
      push_neg
      exact hall
    unfold decodeHeader
    rw [if_neg hlen, htake, hdrop]
    rw [if_neg hany]
    simp only [readU16, readU8]
    refine ⟨fun hb => ?_, fun hb1 hb2 hb3 => ?_, fun hb1 hb2 hb3 hb4 => ?_⟩
    · rw [if_pos (by simp [MinLen, MaxLen]; omega)]
    · rw [if_neg (by simp [MinLen, MaxLen]; omega),
        if_pos (by simp [KeepaliveMsg]; omega)]
    · rw [if_neg (by simp [MinLen, MaxLen]; omega),
        if_neg (by simp [KeepaliveMsg]; omega)]

end HeaderClaim

section NotificationClaim

open packet

/-- C7 witness: an all-`0xFF` marker with length 19 and type 4 decodes to
the header `(19, 4)`; zeroing the first marker byte yields
`MessageHeaderError/ConnectionNotSync`. -/
theorem decodeHeader_spec_witness :
    decodeHeader [255, 255, 255, 255, 255, 255, 255, 255, 255, 255, 255, 255, 255, 255,
        255, 255, 0, 19, 4] = (some ⟨19, 4⟩, none, []) ∧
    decodeHeader [0, 255, 255, 255, 255, 255, 255, 255, 255, 255, 255, 255, 255, 255,
        255, 255, 0, 19, 4] =
      (none, some (.bgp MessageHeaderError ConnectionNotSync "Invalid marker"),
        [0, 19, 4]) := by
  constructor
  · have h := (decodeHeader_spec 255 255 255 255 255 255 255 255 255 255 255 255 255 255
      255 255 0 19 4).2 (by decide)
    simpa using h.2.2 (by norm_num) (by norm_num) (by norm_num) (by norm_num)
  · have h := (decodeHeader_spec 0 255 255 255 255 255 255 255 255 255 255 255 255 255
      255 255 0 19 4).1 (by decide)
    simpa using h

/-- C6: `decodeNotificationMsg` consumes the code and subcode bytes,
returns them in the message, and accepts exactly the pairs of the
code/subcode table: codes outside `1..=Cease` are rejected;
`MessageHeaderError` requires subcode `1..=BadMessageType`;
`OpenMessageError` requires `1..=UnacceptableHoldTime` excluding the
deprecated subcode 5; `UpdateMessageError` requires `1..=MalformedASPath`
excluding the deprecated subcode 7; `HoldTimeExpired`,
`FiniteStateMachineError` and `Cease` require subcode 0. Every violation
with a code not above `Cease` surfaces the invalid-subcode diagnostic;
codes above `Cease` surface the invalid-code diagnostic. -/
theorem notification_code_table (c s : Nat) (rest : List Nat) :
    ((decodeNotificationMsg (c :: s :: rest)).2.1 = none ↔
      ((c = MessageHeaderError ∧ 1 ≤ s ∧ s ≤ BadMessageType) ∨
       (c = OpenMessageError ∧ 1 ≤ s ∧ s ≤ UnacceptableHoldTime ∧
         s ≠ DeprecatedOpenMsgError5) ∨
       (c = UpdateMessageError ∧ 1 ≤ s ∧ s ≤ MalformedASPath ∧
         s ≠ DeprecatedUpdateMsgError7) ∨
       ((c = HoldTimeExpired ∨ c = FiniteStateMachineError ∨ c = Cease) ∧ s = 0))) ∧
    ((decodeNotificationMsg (c :: s :: rest)).1 = ⟨c, s⟩) ∧
    ((decodeNotificationMsg (c :: s :: rest)).2.2 = rest) ∧
    (c ≤ Cease → (decodeNotificationMsg (c :: s :: rest)).2.1 ≠ none →
      (decodeNotificationMsg (c :: s :: rest)).2.1 =
        some (.str "Invalid error sub code" [c, s])) ∧
    (c > Cease →
      (decodeNotificationMsg (c :: s :: rest)).2.1 =
        some (.str "Invalid error code" [s])) := by
  simp only [decodeNotificationMsg, invalidErrCode]
  split_ifs <;>
    refine ⟨?_, rfl, rfl, fun hc hne => ?_, fun hc => ?_⟩ <;>
    simp_all [MessageHeaderError, OpenMessageError, UpdateMessageError, HoldTimeExpired,
      FiniteStateMachineError, Cease, BadMessageType, UnacceptableHoldTime,
      DeprecatedOpenMsgError5, MalformedASPath, DeprecatedUpdateMsgError7] <;>
    omega

end NotificationClaim

section UpdateClaim

open packet

/-- C6 witness: `OpenMessageError` with subcode 4 is accepted; subcode 5
(deprecated) draws the invalid-subcode diagnostic; code 7 draws the
invalid-code diagnostic. -/
theorem notification_code_table_witness :
    (decodeNotificationMsg [2, 4]).2.1 = none ∧
    (decodeNotificationMsg [2, 5]).2.1 = some (.str "Invalid error sub code" [2, 5]) ∧
    (decodeNotificationMsg [7, 1]).2.1 = some (.str "Invalid error code" [1]) := by
  refine ⟨?_, ?_, ?_⟩
  · exact (notification_code_table 2 4 []).1.mpr
      (by norm_num [OpenMessageError, MessageHeaderError, UpdateMessageError,
        HoldTimeExpired, FiniteStateMachineError, Cease, UnacceptableHoldTime,
        DeprecatedOpenMsgError5])
  · exact (notification_code_table 2 5 []).2.2.2.1 (by norm_num [Cease]) (by decide)
  · exact (notification_code_table 7 1 []).2.2.2.2 (by norm_num [Cease])

/-- `readU16` consumes exactly two bytes. -/
theorem readU16_consumes (buf : List Nat) (v : Nat) (r : List Nat)
    (h : readU16 buf = some (v, r)) : r = buf.drop 2 := by
  match buf with
  | [] => simp [readU16] at h
  | [b] => simp [readU16] at h
  | b1 :: b2 :: rest => simp [readU16] at h; simp [h.2]

/-- On success, `decodeNLRIs` consumes exactly its byte budget. -/
theorem decodeNLRIs_consumes :
    ∀ budget buf ps r, decodeNLRIs buf budget = .ok (ps, r) →
      budget ≤ buf.length ∧ r = buf.drop budget := by
  intro budget
  induction budget using Nat.strong_induction_on with
  | _ budget ih =>
    intro buf ps r h
    unfold decodeNLRIs at h
    split_ifs at h with h0
    · subst h0
      simp only [Except.ok.injEq, Prod.mk.injEq] at h
      simp [h.2]
    · cases buf with
      | nil => simp at h
      | cons lb rest =>
        simp only at h
        split_ifs at h with h1 h2
        · cases hrec : decodeNLRIs (rest.drop ((lb + 7) / 8)) (budget - (1 + (lb + 7) / 8)) with
          | error e => rw [hrec] at h; simp at h
          | ok pr =>
            obtain ⟨ps', r'⟩ := pr
            rw [hrec] at h
            simp only [Except.ok.injEq, Prod.mk.injEq] at h
            obtain ⟨hle, hdrop⟩ := ih (budget - (1 + (lb + 7) / 8)) (by omega) _ _ _ hrec
            have hlen : (List.drop ((lb + 7) / 8) rest).length =
                rest.length - (lb + 7) / 8 := by simp
            constructor
            · simp only [List.length_cons]
              omega
            · rw [← h.2, hdrop, List.drop_drop]
              obtain ⟨m, rfl⟩ : ∃ m, budget = m + 1 := ⟨budget - 1, by omega⟩
              rw [List.drop_succ_cons]
              first
              | rfl
              | (congr 1
                 omega)

/-- On success, `decodePathAttrs` consumes exactly its byte budget. -/
theorem decodePathAttrs_consumes :
    ∀ budget buf ps r, decodePathAttrs buf budget = .ok (ps, r) →
      budget ≤ buf.length ∧ r = buf.drop budget := by
  intro budget
  induction budget using Nat.strong_induction_on with
  | _ budget ih =>
    intro buf ps r h
    unfold decodePathAttrs at h
    split_ifs at h with h0
    · subst h0
      simp only [Except.ok.injEq, Prod.mk.injEq] at h
      simp [h.2]
    · cases buf with
      | nil => simp at h
      | cons fl rest0 =>
        cases rest0 with
        | nil => simp at h
        | cons tc rest1 =>
          simp only at h
          by_cases hx : isExtendedLength fl
          · rw [if_pos hx] at h
            cases rest1 with
            | nil => simp at h
            | cons l1 rest1b =>
              cases rest1b with
              | nil => simp at h
              | cons l2 rest2 =>
                simp only at h
                split_ifs at h with hb1 hb2
                · cases hrec : decodePathAttrs (rest2.drop (l1 * 256 + l2))
                    (budget - (2 + 2 + (l1 * 256 + l2))) with
                  | error e => rw [hrec] at h; simp at h
                  | ok pr =>
                    obtain ⟨ps2, r2⟩ := pr
                    rw [hrec] at h
                    simp only [Except.ok.injEq, Prod.mk.injEq] at h
                    obtain ⟨hle, hdrop⟩ := ih (budget - (2 + 2 + (l1 * 256 + l2)))
                      (by omega) _ _ _ hrec
                    have hlen : (List.drop (l1 * 256 + l2) rest2).length =
                        rest2.length - (l1 * 256 + l2) := by simp
                    constructor
                    · simp only [List.length_cons]
                      omega
                    · rw [← h.2, hdrop, List.drop_drop]
                      obtain ⟨m, rfl⟩ : ∃ m, budget = m + 4 := ⟨budget - 4, by omega⟩
                      rw [show m + 4 = m + 3 + 1 from rfl, List.drop_succ_cons,
                        show m + 3 = m + 2 + 1 from rfl, List.drop_succ_cons,
                        show m + 2 = m + 1 + 1 from rfl, List.drop_succ_cons,
                        List.drop_succ_cons]
                      first
                      | rfl
                      | (congr 1
                         omega)
          · rw [if_neg hx] at h
            cases rest1 with
            | nil => simp at h
            | cons l1 rest2 =>
              simp only at h
              split_ifs at h with hb1 hb2
              · cases hrec : decodePathAttrs (rest2.drop l1) (budget - (2 + 1 + l1)) with
                | error e => rw [hrec] at h; simp at h
                | ok pr =>
                  obtain ⟨ps2, r2⟩ := pr
                  rw [hrec] at h
                  simp only [Except.ok.injEq, Prod.mk.injEq] at h
                  obtain ⟨hle, hdrop⟩ := ih (budget - (2 + 1 + l1)) (by omega) _ _ _ hrec
                  have hlen : (List.drop l1 rest2).length = rest2.length - l1 := by simp
                  constructor
                  · simp only [List.length_cons]
                    omega
                  · rw [← h.2, hdrop, List.drop_drop]
                    obtain ⟨m, rfl⟩ : ∃ m, budget = m + 3 := ⟨budget - 3, by omega⟩
                    rw [show m + 3 = m + 2 + 1 from rfl, List.drop_succ_cons,
                      show m + 2 = m + 1 + 1 from rfl, List.drop_succ_cons,
                      List.drop_succ_cons]
                    first
                    | rfl
                    | (congr 1
                       omega)

end UpdateClaim

section UpdateClaim2

open packet

/-- C1 amended: after parsing the withdrawn routes and the path
attributes, `decodeUpdateMsg` computes
`nlri_len = body_len − 4 − total_path_attr_len − withdrawn_routes_len` in
wrapping `uint16` arithmetic (`u16sub`) — there is no negativity check and
no `UpdateMessageError/MalformedAttributeList` failure for a negative
mathematical value (see the counterexample) — and whenever `nlri_len > 0`
it consumes exactly `nlri_len` further bytes as NLRI, so a successful
decode consumes `4 + withdrawn_routes_len + total_path_attr_len +
nlri_len` bytes of the body in total; when the mathematical value is
nonnegative, the wrapped `nlri_len` agrees with it. -/
theorem updateMsg_nlri_consumption (buf : List Nat) (l : Nat) (msg : BGPUpdate)
    (rest : List Nat) (h : decodeUpdateMsg buf l = (msg, none, rest)) :
    rest = buf.drop (4 + msg.withdrawnRoutesLen + msg.totalPathAttrLen +
      u16sub l msg.totalPathAttrLen msg.withdrawnRoutesLen) ∧
    (∀ t w : Nat, t < 65536 → w < 65536 → l < 65536 →
      (0 : Int) ≤ (l : Int) - 4 - (t : Int) - (w : Int) →
      (u16sub l t w : Int) = (l : Int) - 4 - (t : Int) - (w : Int)) := by
  constructor
  case right =>
    intro t w ht hw hl hnn
    unfold u16sub
    omega
  case left =>
    unfold decodeUpdateMsg at h
    cases h16 : readU16 buf with
    | none => rw [h16] at h; exact absurd h (by simp)
    | some p1 =>
      obtain ⟨w, buf1⟩ := p1
      rw [h16] at h
      simp only at h
      cases hn1 : decodeNLRIs buf1 w with
      | error e => rw [hn1] at h; exact absurd h (by simp)
      | ok p2 =>
        obtain ⟨wdr, buf2⟩ := p2
        rw [hn1] at h
        simp only at h
        cases h16b : readU16 buf2 with
        | none => rw [h16b] at h; exact absurd h (by simp)
        | some p3 =>
          obtain ⟨t, buf3⟩ := p3
          rw [h16b] at h
          simp only at h
          cases hpa : decodePathAttrs buf3 t with
          | error e => rw [hpa] at h; exact absurd h (by simp)
          | ok p4 =>
            obtain ⟨pas, buf4⟩ := p4
            rw [hpa] at h
            simp only at h
            have e1 := readU16_consumes buf w buf1 h16
            have e2 := (decodeNLRIs_consumes w buf1 wdr buf2 hn1).2
            have e3 := readU16_consumes buf2 t buf3 h16b
            have e4 := (decodePathAttrs_consumes t buf3 pas buf4 hpa).2
            by_cases hpos : u16sub l t w > 0
            · rw [if_pos hpos] at h
              cases hn2 : decodeNLRIs buf4 (u16sub l t w) with
              | error e => rw [hn2] at h; exact absurd h (by simp)
              | ok p5 =>
                obtain ⟨nl, buf5⟩ := p5
                rw [hn2] at h
                have e5 := (decodeNLRIs_consumes (u16sub l t w) buf4 nl buf5 hn2).2
                simp only [Prod.mk.injEq] at h
                obtain ⟨hmsg, -, hrest⟩ := h
                subst hmsg
                subst hrest
                simp only [emptyUpdate]
                subst e5 e4 e3 e2 e1
                simp only [List.drop_drop]
                congr 1
                omega
            · rw [if_neg hpos] at h
              simp only [Prod.mk.injEq] at h
              obtain ⟨hmsg, -, hrest⟩ := h
              subst hmsg
              subst hrest
              simp only [emptyUpdate]
              subst e4 e3 e2 e1
              simp only [List.drop_drop]
              congr 1
              omega

end UpdateClaim2

section UpdateClaim3

open packet

/-- C1 counterexample: body `[0,0, 0,3, 0,1,0]` with declared length 6
parses withdrawn routes (len 0) and path attributes (len 3, fully
consumed), making the mathematical `nlri_len = 6 − 4 − 3 − 0 = −1`
negative; the decoder does not fail with
`UpdateMessageError/MalformedAttributeList` — it wraps the length to
65535, attempts NLRI parsing, and surfaces a plain buffer-underflow
string error that carries no (code, subcode) pair at all. -/
theorem updateMsg_no_negative_check :
    ((6 : Int) - 4 - 3 - 0 < 0) ∧
    (decodeUpdateMsg [0, 0, 0, 3, 0, 1, 0] 6).1.withdrawnRoutesLen = 0 ∧
    (decodeUpdateMsg [0, 0, 0, 3, 0, 1, 0] 6).1.totalPathAttrLen = 3 ∧
    u16sub 6 3 0 = 65535 ∧
    (decodeUpdateMsg [0, 0, 0, 3, 0, 1, 0] 6).2.1 =
      some (DecErr.str "Unable to read from buffer" []) ∧
    errCodes (decodeUpdateMsg [0, 0, 0, 3, 0, 1, 0] 6).2.1 = none := by
  have hu : u16sub 6 3 0 = 65535 := by unfold u16sub; decide
  have hev : decodeUpdateMsg [0, 0, 0, 3, 0, 1, 0] 6 =
      ((⟨0, [], 3, [⟨false, false, false, false, 1, 0, []⟩], []⟩ : BGPUpdate),
        some (DecErr.str "Unable to read from buffer" []), []) := by
    unfold decodeUpdateMsg
    rw [show readU16 [0, 0, 0, 3, 0, 1, 0] = some (0, [0, 3, 0, 1, 0]) from rfl]
    dsimp only
    rw [show decodeNLRIs [0, 3, 0, 1, 0] 0 = .ok ([], [0, 3, 0, 1, 0]) from by
      unfold decodeNLRIs; rfl]
    dsimp only
    rw [show readU16 [0, 3, 0, 1, 0] = some (3, [0, 1, 0]) from rfl]
    dsimp only
    rw [show decodePathAttrs [0, 1, 0] 3 =
        .ok ([⟨false, false, false, false, 1, 0, []⟩], []) from by
      unfold decodePathAttrs
      norm_num [isExtendedLength, isOptional, isTransitive, isPartBit]
      unfold decodePathAttrs
      rfl]
    dsimp only
    rw [hu]
    norm_num
    rw [show decodeNLRIs [] 65535 = .error underflowErr from by
      unfold decodeNLRIs; rfl]
    rfl
  rw [hev]
  refine ⟨by norm_num, rfl, rfl, hu, rfl, rfl⟩

end UpdateClaim3

section UpdateClaim4

open packet

/-- C1 amended, witness: a successful decode of a 7-byte body (no
withdrawn routes, no attributes, `nlri_len = 3`) consumes exactly
`4 + 0 + 0 + nlri_len` bytes. -/
theorem updateMsg_nlri_consumption_witness :
    ([] : List Nat) = [0, 0, 0, 0, 16, 1, 2].drop (4 + 0 + 0 + u16sub 7 0 0) := by
  have hev : decodeUpdateMsg [0, 0, 0, 0, 16, 1, 2] 7 =
      ((⟨0, [], 0, [], [⟨258, 16⟩]⟩ : BGPUpdate), none, []) := by
    unfold decodeUpdateMsg
    rw [show readU16 [0, 0, 0, 0, 16, 1, 2] = some (0, [0, 0, 16, 1, 2]) from rfl]
    dsimp only
    rw [show decodeNLRIs [0, 0, 16, 1, 2] 0 = .ok ([], [0, 0, 16, 1, 2]) from by
      unfold decodeNLRIs; rfl]
    dsimp only
    rw [show readU16 [0, 0, 16, 1, 2] = some (0, [16, 1, 2]) from rfl]
    dsimp only
    rw [show decodePathAttrs [16, 1, 2] 0 = .ok ([], [16, 1, 2]) from by
      unfold decodePathAttrs; rfl]
    dsimp only
    rw [show u16sub 7 0 0 = 3 from by unfold u16sub; decide]
    norm_num
    rw [show decodeNLRIs [16, 1, 2] 3 = .ok ([⟨258, 16⟩], []) from by
      unfold decodeNLRIs
      unfold decodeNLRIs
      rfl]
  have h := (updateMsg_nlri_consumption [0, 0, 0, 0, 16, 1, 2] 7 _ _ hev).1
  simpa using h

end UpdateClaim4
